import Mathlib

/-!
Shallow embedding of tsp_search_dynamic.c, a multi-threaded branch-and-bound
search for the travelling salesman problem.  Machine ints are modelled as Int
(all quantities stay far below any overflow in the runs considered), the C
array tour_t.cities together with its count field is modelled as the list of
its first count entries, and a stack of stack_elt_t pointers is modelled as a
list (index 0 is the bottom of the array unless a comment says otherwise).
The per-worker search loop is embedded for the single-thread schedule, and
the decision logic of the termination protocol is embedded as a pure function
of the protocol state observed under the lock.
-/

/-- Sentinel infinite cost, tsp_search_dynamic.c line 32. -/
def INFINITY : Int := 1000000

/-- Sentinel for an unset city, line 33. -/
def NO_CITY : Int := -1

/-- Model of tour_t (lines 40-44): cities holds exactly the first count
committed cities, so count is the length of the list; the n+1 slots that the C
array additionally carries are never read before being overwritten in the runs
modelled here. -/
structure tour_t where
  cities : List Int
  cost : Int
deriving DecidableEq

/-- The count field of a tour_t is the number of committed cities. -/
def tour_t.count (t : tour_t) : Nat := t.cities.length

/-- Model of stack_elt_t (lines 46-50): a partial tour, the city under
consideration and the cost of travelling to that city. -/
structure stack_elt_t where
  tour_p : tour_t
  city : Int
  cost : Int
deriving DecidableEq

/-- The shared best tour right after main lines 103-104: Initialize_tour gives
an empty committed prefix with cost 0, then main sets cost to INFINITY. -/
def best_tour_init : tour_t := ⟨[], INFINITY⟩

/-- The linear scan of Visited, lines 419-421: compare nbr against each of the
first count cities of the tour. -/
def visitedLoop (nbr : Int) : List Int → Bool
  | [] => false
  | c :: rest => if c = nbr then true else visitedLoop nbr rest

/-- Visited, lines 416-422. -/
def Visited (nbr : Int) (tour : tour_t) : Bool := visitedLoop nbr tour.cities

/-- Feasible, lines 400-406: nbr is not yet on the tour and extending by the
edge from city to nbr stays strictly below the local best cost.  The globals
mat and n are read-only and passed as parameters; the function touches no
mutable shared state and returns only a flag. -/
def Feasible (mat : Int → Int) (n city nbr : Int) (tour : tour_t)
    (local_best_cost : Int) : Bool :=
  !Visited nbr tour && decide (tour.cost + mat (n * city + nbr) < local_best_cost)

/-- Check_best_tour, lines 372-385, called with tour.count = n: if the tour
cost plus the edge from city back to home city 0 is strictly below the shared
best cost, the best tour becomes the tour followed by 0 with that candidate
cost, and the local best cost of the calling worker is set to it; otherwise
nothing changes.  Returns the new (best_tour, local_best cost) pair. -/
def Check_best_tour (mat : Int → Int) (n city : Int) (tour best : tour_t)
    (local_best_cost : Int) : tour_t × Int :=
  if tour.cost + mat (city * n + 0) < best.cost then
    (⟨tour.cities ++ [0], tour.cost + mat (city * n + 0)⟩,
     tour.cost + mat (city * n + 0))
  else
    (best, local_best_cost)

/-- Shared best tour together with the local_best cost of every worker rank. -/
structure shared_state_t where
  best : tour_t
  locals : Nat → Int

/-- One execution of the locked Check_best_tour call by worker w (Search lines
193-195): only the shared best tour and the local bound of w can change. -/
def commit_step (mat : Int → Int) (n city : Int) (tour : tour_t) (w : Nat)
    (s : shared_state_t) : shared_state_t :=
  let r := Check_best_tour mat n city tour s.best (s.locals w)
  ⟨r.1, fun q => if q = w then r.2 else s.locals q⟩

/-- first_final_city of Fill_stack, lines 222-230, with quotient standing for
(n-1) / thread_count and remainder for (n-1) % thread_count. -/
def first_final_city (n thread_count my_rank : Nat) : Nat :=
  if my_rank < (n - 1) % thread_count then
    my_rank * ((n - 1) / thread_count + 1) + 1
  else my_rank * ((n - 1) / thread_count) + (n - 1) % thread_count + 1

/-- partial_tour_count of Fill_stack, lines 222-230. -/
def partial_tour_count (n thread_count my_rank : Nat) : Nat :=
  if my_rank < (n - 1) % thread_count then (n - 1) / thread_count + 1
  else (n - 1) / thread_count

/-- Fill_stack, lines 220-245, bottom of the stack first.  Each frame carries
the one-city tour 0 and a final city i.  Line 242 reads cost += mat[i] where
cost is a field of a freshly malloc-ed, never initialized stack_elt_t, which
is undefined behaviour in C; the parameter junk stands for the indeterminate
initial contents of that field, so the recorded cost is junk + mat[i]. -/
def Fill_stack (mat : Int → Int) (n thread_count my_rank : Nat) (junk : Int) :
    List stack_elt_t :=
  (List.range (partial_tour_count n thread_count my_rank)).map fun j =>
    { tour_p := ⟨[0], 0⟩
      city := Int.ofNat (first_final_city n thread_count my_rank + j)
      cost := junk + mat (Int.ofNat (first_final_city n thread_count my_rank + j)) }

/-- The frames kept by Split_stack, lines 321-326: the frame at position 0 and
then the frames at even positions 2, 4, ..., compacted in place. -/
def split_retained {α : Type} : List α → List α
  | [] => []
  | [a] => [a]
  | a :: _ :: t => a :: split_retained t

/-- The frames moved to new_stack by Split_stack, lines 316-320: the frames at
odd positions 1, 3, 5, ..., in order. -/
def split_donated {α : Type} : List α → List α
  | [] => []
  | [_] => []
  | _ :: b :: t => b :: split_donated t

/-- Split_stack, lines 309-327: the pair (retained stack, donated stack).
The element type is kept abstract since the C code only moves pointers. -/
def Split_stack {α : Type} (s : List α) : List α × List α :=
  (split_retained s, split_donated s)

/-- The decision a worker takes in Terminated after its condition-variable
wait returns, lines 283-295, as a function of the state it observes under
terminated_mutex.  Result some (stack, top) models returning 0 after freeing
the own stack and installing the mailbox pointer new_stack (which the code
takes even when it is NULL, modelled none) and the global new_stack_top as the
new stack; result none models returning 1, global termination. -/
def Terminated_on_wake (thread_count threads_in_cond_wait : Nat)
    (new_stack : Option (List stack_elt_t)) (new_stack_top : Nat) :
    Option (Option (List stack_elt_t) × Nat) :=
  if threads_in_cond_wait < thread_count ∨ new_stack ≠ none then
    some (new_stack, new_stack_top)
  else
    none

/-- Pop, lines 353-360, on a bottom-first stack with explicit top index: reads
the element below top and decrements top.  Result none models the undefined
behaviour of decrementing top from 0 or dereferencing a NULL stack pointer. -/
def Pop (stack : Option (List stack_elt_t)) (top : Nat) :
    Option (stack_elt_t × Nat) :=
  match stack, top with
  | some s, t + 1 => (s[t]?).map fun e => (e, t)
  | _, _ => none

/-- Push, lines 436-448, on a top-first list: the tour is duplicated, which
the value semantics of lists gives for free. -/
def Push (tour : tour_t) (city cost : Int) (stack : List stack_elt_t) :
    List stack_elt_t :=
  ⟨tour, city, cost⟩ :: stack

/-- The expansion loop of Search, lines 197-201: for nbr running over the
given list (the code iterates nbr = n-1 down to 1), push a frame for every
feasible neighbour.  The stack argument and result are top-first lists. -/
def expandLoop (mat : Int → Int) (n : Nat) (city : Int) (tour : tour_t)
    (local_best_cost : Int) : List Nat → List stack_elt_t → List stack_elt_t
  | [], stack => stack
  | nbr :: rest, stack =>
    expandLoop mat n city tour local_best_cost rest
      (if Feasible mat (Int.ofNat n) city (Int.ofNat nbr) tour local_best_cost then
        Push tour (Int.ofNat nbr) (mat (Int.ofNat n * city + Int.ofNat nbr)) stack
      else stack)

/-- One iteration of the Search loop, lines 187-206, for the single-thread
schedule in which Terminated only tests for an empty stack: pop the top frame
(the head of the top-first list), extend the tour by the frame city and cost,
then either check the complete tour against the best tour or push the feasible
extensions. -/
def Search_step (mat : Int → Int) (n : Nat) :
    List stack_elt_t × tour_t × Int → List stack_elt_t × tour_t × Int
  | ([], best, local_best_cost) => ([], best, local_best_cost)
  | (e :: rest, best, local_best_cost) =>
    let t : tour_t := ⟨e.tour_p.cities ++ [e.city], e.tour_p.cost + e.cost⟩
    if t.cities.length = n then
      let r := Check_best_tour mat (Int.ofNat n) e.city t best local_best_cost
      (rest, r.1, r.2)
    else
      (expandLoop mat n e.city t local_best_cost
        ((List.range' 1 (n - 1)).reverse) rest, best, local_best_cost)

/-- Iterate Search_step; once the stack is empty the state is fixed, so any
fuel beyond the number of pops leaves the final state unchanged. -/
def Search_run (mat : Int → Int) (n : Nat) :
    Nat → List stack_elt_t × tour_t × Int → List stack_elt_t × tour_t × Int
  | 0, st => st
  | fuel + 1, st => Search_run mat n fuel (Search_step mat n st)

/-- Sum of the matrix entries along consecutive edges of a city sequence. -/
def tour_edge_sum (mat : Int → Int) (n : Int) : List Int → Int
  | a :: b :: rest => mat (n * a + b) + tour_edge_sum mat n (b :: rest)
  | _ => 0

/-- The startup inputs of main, lines 83-107: the argument count, whether
fopen on the matrix file succeeds, the parsed thread count and the city count
read from the file. -/
structure config_t where
  argc : Nat
  file_readable : Bool
  thread_count : Int
  n : Int

/-- Outcome of the startup checks of main: usageExit models printing the usage
message to stderr (Usage, lines 127-132, reached from lines 88, 92 and 97)
and exiting before the pthread_create loop at line 107 ever runs; launch
models reaching the worker-creation loop. -/
inductive main_result_t where
  | usageExit
  | launch (thread_count n : Int)
deriving DecidableEq

/-- The validation sequence of main, lines 88-97, in source order: argument
count, then file open, then the thread-count bounds. -/
def main_startup (c : config_t) : main_result_t :=
  if c.argc ≠ 3 then .usageExit
  else if c.file_readable = false then .usageExit
  else if c.thread_count < 1 ∨ c.n ≤ c.thread_count then .usageExit
  else .launch c.thread_count c.n

/-- A cost matrix given by its row-major flat entry list, out-of-range reads
defaulting to 0 (never exercised on valid indices). -/
def matFromList (entries : List Int) : Int → Int :=
  fun i => entries.getD i.toNat 0

/-- The 2-city example matrix of the spec: [[0,5],[5,0]]. -/
def mat2 : Int → Int := matFromList [0, 5, 5, 0]

/-- A 3-city matrix [[0,1,2],[3,0,4],[5,6,0]]. -/
def mat3 : Int → Int := matFromList [0, 1, 2, 3, 0, 4, 5, 6, 0]

/-- The 4-city example matrix of the spec:
[[0,1,2,3],[4,0,5,6],[7,8,0,9],[10,11,12,0]]. -/
def mat4 : Int → Int :=
  matFromList [0, 1, 2, 3, 4, 0, 5, 6, 7, 8, 0, 9, 10, 11, 12, 0]

/-- Shared state at startup with every local bound at INFINITY. -/
def two_worker_start : shared_state_t := ⟨best_tour_init, fun _ => INFINITY⟩

/-- Induction on lists two elements at a time, matching the recursion pattern
of split_retained and split_donated. -/
theorem twoStepInduction {α : Type} {motive : List α → Prop} (h0 : motive [])
    (h1 : ∀ a, motive [a]) (h2 : ∀ a b t, motive t → motive (a :: b :: t)) :
    ∀ l, motive l := by
  have key : ∀ k (l : List α), l.length ≤ k → motive l := by
    intro k
    induction k with
    | zero =>
      intro l hl
      cases l with
      | nil => exact h0
      | cons a t => simp at hl
    | succ k ih =>
      intro l hl
      cases l with
      | nil => exact h0
      | cons a l2 =>
        cases l2 with
        | nil => exact h1 a
        | cons b t =>
          refine h2 a b t (ih t ?_)
          simp only [List.length_cons] at hl
          omega
  exact fun l => key l.length l le_rfl

/-- The linear scan of Visited decides list membership. -/
theorem visitedLoop_iff (nbr : Int) (l : List Int) :
    visitedLoop nbr l = true ↔ nbr ∈ l := by
  induction l with
  | nil => simp [visitedLoop]
  | cons c rest ih =>
    simp only [visitedLoop, List.mem_cons]
    by_cases h : c = nbr
    · simp [h]
    · rw [if_neg h, ih]
      constructor
      · exact Or.inr
      · rintro (rfl | hm)
        · exact absurd rfl h
        · exact hm

/-- The retained half of a split keeps one frame more than half, rounded up. -/
theorem split_retained_length {α : Type} (s : List α) :
    (split_retained s).length = (s.length + 1) / 2 := by
  induction s using twoStepInduction with
  | h0 => simp [split_retained]
  | h1 a => simp [split_retained]
  | h2 a b t ih =>
    simp only [split_retained, List.length_cons, ih]
    omega

/-- The donated half of a split holds half the frames, rounded down. -/
theorem split_donated_length {α : Type} (s : List α) :
    (split_donated s).length = s.length / 2 := by
  induction s using twoStepInduction with
  | h0 => simp [split_donated]
  | h1 a => simp [split_donated]
  | h2 a b t ih =>
    simp only [split_donated, List.length_cons, ih]
    omega

/-- Frame j of the retained half is the frame at even position 2j of the
original stack, exactly as the compacting loop at lines 321-326 places it. -/
theorem split_retained_get {α : Type} (s : List α) :
    ∀ j : Nat, (split_retained s)[j]? = s[2 * j]? := by
  induction s using twoStepInduction with
  | h0 => intro j; simp [split_retained]
  | h1 a =>
    intro j
    cases j with
    | zero => simp [split_retained]
    | succ jj =>
      have h2j : 2 * (jj + 1) = (2 * jj + 1) + 1 := by ring
      rw [h2j]
      simp [split_retained]
  | h2 a b t ih =>
    intro j
    cases j with
    | zero => simp [split_retained]
    | succ jj =>
      have h2j : 2 * (jj + 1) = (2 * jj + 1) + 1 := by ring
      rw [h2j]
      simp only [split_retained, List.getElem?_cons_succ]
      exact ih jj

/-- Frame j of the donated half is the frame at odd position 2j+1 of the
original stack, exactly as the loop at lines 316-320 deposits it. -/
theorem split_donated_get {α : Type} (s : List α) :
    ∀ j : Nat, (split_donated s)[j]? = s[2 * j + 1]? := by
  induction s using twoStepInduction with
  | h0 => intro j; simp [split_donated]
  | h1 a =>
    intro j
    have h2j : 2 * j + 1 = j + j + 1 := by ring
    rw [h2j]
    cases j with
    | zero => simp [split_donated]
    | succ jj =>
      have h2j2 : jj + 1 + (jj + 1) + 1 = (jj + jj + 2) + 1 := by ring
      rw [h2j2]
      simp [split_donated]
  | h2 a b t ih =>
    intro j
    cases j with
    | zero => simp [split_donated]
    | succ jj =>
      have h2j : 2 * (jj + 1) + 1 = ((2 * jj + 1) + 1) + 1 := by ring
      rw [h2j]
      simp only [split_donated, List.getElem?_cons_succ]
      exact ih jj

/-- The two halves of a split together are a permutation of the original
stack contents. -/
theorem split_perm {α : Type} (s : List α) :
    (split_retained s ++ split_donated s).Perm s := by
  induction s using twoStepInduction with
  | h0 =>
    simp only [split_retained, split_donated, List.append_nil]
    exact List.Perm.refl _
  | h1 a =>
    simp only [split_retained, split_donated, List.append_nil]
    exact List.Perm.refl _
  | h2 a b t ih =>
    simp only [split_retained, split_donated, List.cons_append]
    refine List.Perm.cons a ?_
    exact List.Perm.trans List.perm_middle (ih.cons b)

/-- Rank 0 starts its slice of final cities at city 1. -/
theorem first_final_city_zero (n tc : Nat) : first_final_city n tc 0 = 1 := by
  unfold first_final_city
  generalize (n - 1) % tc = rem
  split_ifs with h1
  · simp
  · simp only [Nat.zero_mul, Nat.zero_add]
    omega

/-- Consecutive ranks receive consecutive slices: the slice of rank r+1 starts
right after the slice of rank r ends, so the slices are pairwise disjoint. -/
theorem first_final_city_step (n tc r : Nat) :
    first_final_city n tc (r + 1) =
      first_final_city n tc r + partial_tour_count n tc r := by
  unfold first_final_city partial_tour_count
  generalize (n - 1) / tc = q
  generalize (n - 1) % tc = rem
  split_ifs with h1 h2 h2
  · ring
  · omega
  · have hr : rem = r + 1 := by omega
    subst hr
    ring
  · ring

/-- The slices of ranks 0 .. tc-1 exactly exhaust the final cities 1 .. n-1:
the city just past the last slice is (n-1)+1. -/
theorem first_final_city_last (n tc : Nat) (h : 1 ≤ tc) :
    first_final_city n tc tc = (n - 1) + 1 := by
  have hmod : (n - 1) % tc < tc := Nat.mod_lt _ (by omega)
  have hdm : tc * ((n - 1) / tc) + (n - 1) % tc = n - 1 :=
    Nat.div_add_mod (n - 1) tc
  unfold first_final_city
  split_ifs with h1
  · omega
  · rw [hdm]

/-- Every rank receives either the floor or the ceiling share of the n-1
final cities. -/
theorem partial_tour_count_floor_or_ceil (n tc r : Nat) :
    partial_tour_count n tc r = (n - 1) / tc ∨
      partial_tour_count n tc r = (n - 1) / tc + 1 := by
  unfold partial_tour_count
  split_ifs with h
  · exact Or.inr rfl
  · exact Or.inl rfl

/-- The number of initial frames of a rank is its partial_tour_count. -/
theorem Fill_stack_length (mat : Int → Int) (n tc r : Nat) (junk : Int) :
    (Fill_stack mat n tc r junk).length = partial_tour_count n tc r := by
  simp [Fill_stack]

/-- Claim C1: the claim asserts that after termination best_tour is an optimal
tour whose recorded cost is the edge sum along the tour.  The code violates
this: Fill_stack line 242 adds mat[i] to the uninitialized cost field of a
freshly malloc-ed frame, so with indeterminate contents 1 the single-threaded
run on the valid 2-city input [[0,5],[5,0]] ends with best tour [0,1,0] and
recorded cost 11, while the edge sum along that tour, and the true optimum,
is 10. -/
theorem search_reports_garbage_cost :
    (Search_run mat2 2 4
        ((Fill_stack mat2 2 1 0 1).reverse, best_tour_init, INFINITY)).2.1.cities
      = [0, 1, 0]
    ∧ (Search_run mat2 2 4
        ((Fill_stack mat2 2 1 0 1).reverse, best_tour_init, INFINITY)).2.1.cost
      = 11
    ∧ tour_edge_sum mat2 2 [0, 1, 0] = 10
    ∧ tour_edge_sum mat2 2 [0, 1, 0] <
        (Search_run mat2 2 4
          ((Fill_stack mat2 2 1 0 1).reverse, best_tour_init, INFINITY)).2.1.cost := by
  decide

/-- With the uninitialized field at 0 the same search embedding does return
the brute-force optimum of the 4-city spec example, cost 25 over the six
complete tours, confirming that cost = mat[i] is the intended behaviour. -/
theorem search_optimal_on_spec_example :
    (Search_run mat4 4 64
        ((Fill_stack mat4 4 1 0 0).reverse, best_tour_init, INFINITY)).2.1.cost = 25
    ∧ (Search_run mat4 4 64
        ((Fill_stack mat4 4 1 0 0).reverse, best_tour_init, INFINITY)).1 = []
    ∧ ([[0, 1, 2, 3, 0], [0, 1, 3, 2, 0], [0, 2, 1, 3, 0],
        [0, 2, 3, 1, 0], [0, 3, 1, 2, 0], [0, 3, 2, 1, 0]].map
          (tour_edge_sum mat4 4)) = [25, 26, 26, 26, 26, 27] := by
  decide

/-- Claim C2: the claim asserts that a woken worker takes the mailbox stack if
present and retries the idle check if none before reporting.  The code has no
retry: woken in the state thread_count = 3, threads_in_cond_wait = 1, empty
mailbox (reachable when a signal or spurious wakeup rouses a second waiter
after another waiter consumed the donated stack), it reports not-terminated
and installs the NULL mailbox pointer and the stale new_stack_top 0 as its
stack instead of retrying. -/
theorem terminated_wake_takes_empty_mailbox :
    Terminated_on_wake 3 1 none 0 = some (none, 0) := by
  decide

/-- Claim C10: the claim asserts that whenever Terminated returns 0 the stack
it leaves is non-empty so the following Pop is safe.  In the state
thread_count = 3, threads_in_cond_wait = 2, empty mailbox, new_stack_top = 0
(a spurious wakeup before any donation), the wake branch returns 0 with a
NULL stack and top 0, and the Pop that Search performs next decrements top
from 0, reading below the bottom: the model yields none, undefined behaviour
in the C code. -/
theorem terminated_wake_then_pop_underflows :
    Terminated_on_wake 3 2 none 0 = some (none, 0)
    ∧ Pop none 0 = none := by
  decide

/-- Claim C3: Check_best_tour replaces the shared best tour if and only if the
candidate cost, the tour cost plus the edge from its last city back to city 0,
is strictly below the current best cost; otherwise the best tour (cities,
count and cost alike) and the local bound are returned unchanged, and on a
replacement the new best is the tour followed by city 0 with the candidate
cost. -/
theorem check_best_tour_commit_iff (mat : Int → Int) (n city : Int)
    (tour best : tour_t) (local_best_cost : Int) :
    ((Check_best_tour mat n city tour best local_best_cost).1 ≠ best ↔
        tour.cost + mat (city * n + 0) < best.cost)
    ∧ ((Check_best_tour mat n city tour best local_best_cost).1 = best
          ∧ (Check_best_tour mat n city tour best local_best_cost).2 = local_best_cost
        ∨ (Check_best_tour mat n city tour best local_best_cost).1.cities
            = tour.cities ++ [0]
          ∧ (Check_best_tour mat n city tour best local_best_cost).1.cost
            = tour.cost + mat (city * n + 0)
          ∧ (Check_best_tour mat n city tour best local_best_cost).2
            = tour.cost + mat (city * n + 0)) := by
  unfold Check_best_tour
  split_ifs with h
  · constructor
    · constructor
      · intro _
        exact h
      · intro _ heq
        have hc : tour.cost + mat (city * n + 0) = best.cost :=
          congrArg tour_t.cost heq
        omega
    · exact Or.inr ⟨rfl, rfl, rfl⟩
  · constructor
    · constructor
      · intro hne
        exact absurd rfl hne
      · intro hlt
        exact absurd hlt h
    · exact Or.inl ⟨rfl, rfl⟩

/-- Claim C4: Feasible returns true exactly when nbr is not among the first
count cities of the tour and the tour cost plus the edge from city to nbr is
strictly below the local best cost.  The embedding is a pure function of mat,
n and its arguments: it mutates neither the tour nor any shared state. -/
theorem feasible_iff (mat : Int → Int) (n city nbr : Int) (tour : tour_t)
    (local_best_cost : Int) :
    Feasible mat n city nbr tour local_best_cost = true ↔
      nbr ∉ tour.cities ∧ tour.cost + mat (n * city + nbr) < local_best_cost := by
  have hv : Visited nbr tour = false ↔ nbr ∉ tour.cities := by
    rw [← visitedLoop_iff nbr tour.cities]
    unfold Visited
    cases h : visitedLoop nbr tour.cities <;> simp [h]
  simp only [Feasible, Bool.and_eq_true, Bool.not_eq_true', decide_eq_true_eq]
  rw [hv]

/-- Claim C5: for a stack of k frames with k at least 2, Split_stack donates
exactly the frames at odd positions in order (frame j of the donated stack is
frame 2j+1 of the original), retains the frames at even positions compacted in
place (frame j of the retained stack is frame 2j of the original), the donated
stack has floor(k/2) frames and the retained stack ceil(k/2), summing to k,
and together the two stacks are a permutation, hence multiset-equal, to the
original. -/
theorem split_stack_spec {α : Type} (s : List α) (h : 2 ≤ s.length) :
    (Split_stack s).2.length = s.length / 2
    ∧ (Split_stack s).1.length = (s.length + 1) / 2
    ∧ (Split_stack s).1.length + (Split_stack s).2.length = s.length
    ∧ (∀ j : Nat, (Split_stack s).1[j]? = s[2 * j]?)
    ∧ (∀ j : Nat, (Split_stack s).2[j]? = s[2 * j + 1]?)
    ∧ ((Split_stack s).1 ++ (Split_stack s).2).Perm s := by
  refine ⟨split_donated_length s, split_retained_length s, ?_,
    split_retained_get s, split_donated_get s, split_perm s⟩
  have h1 := split_retained_length s
  have h2 := split_donated_length s
  simp only [Split_stack]
  omega

/-- Witness for split_stack_spec at the concrete 5-frame stack
[10, 20, 30, 40, 50]. -/
theorem split_stack_spec_witness :
    2 ≤ ([10, 20, 30, 40, 50] : List Nat).length
    ∧ (Split_stack ([10, 20, 30, 40, 50] : List Nat)).2.length = 2
    ∧ ((Split_stack ([10, 20, 30, 40, 50] : List Nat)).1 ++
        (Split_stack ([10, 20, 30, 40, 50] : List Nat)).2).Perm
        [10, 20, 30, 40, 50] :=
  ⟨by decide,
   (split_stack_spec ([10, 20, 30, 40, 50] : List Nat) (by decide)).1,
   (split_stack_spec ([10, 20, 30, 40, 50] : List Nat) (by decide)).2.2.2.2.2⟩

/-- Claim C6: the claim asserts each initial frame records edge cost mat[i].
The code violates this: line 242 executes cost += mat[i] on the uninitialized
cost field of a freshly malloc-ed frame.  For n = 3, one thread, rank 0, with
indeterminate contents 1, the two frames carry the correct tours [0] with
count 1 and cost 0 and the correct cities 1 and 2, but record costs
1 + mat[1] and 1 + mat[2] instead of mat[1] and mat[2]. -/
theorem fill_stack_uninitialized_cost :
    (Fill_stack mat3 3 1 0 1).map (fun e => e.cost) = [1 + mat3 1, 1 + mat3 2]
    ∧ (Fill_stack mat3 3 1 0 1).map (fun e => (e.tour_p, e.city))
        = [(⟨[0], 0⟩, 1), (⟨[0], 0⟩, 2)]
    ∧ 1 + mat3 1 ≠ mat3 1 := by
  decide

/-- Counterexample to claim C7: with two workers both starting at local bound
INFINITY, a commit by worker 0 on the 2-city example lowers the shared best
cost to 10, yet the local bound of worker 1 stays INFINITY, different from the
new shared best cost, and nothing in the code ever refreshes it. -/
theorem local_bound_stale_cx :
    (commit_step mat2 2 1 ⟨[0, 1], 5⟩ 0 two_worker_start).best.cost = 10
    ∧ (commit_step mat2 2 1 ⟨[0, 1], 5⟩ 0 two_worker_start).best.cost
        < two_worker_start.best.cost
    ∧ (commit_step mat2 2 1 ⟨[0, 1], 5⟩ 0 two_worker_start).locals 1
        = INFINITY
    ∧ (commit_step mat2 2 1 ⟨[0, 1], 5⟩ 0 two_worker_start).locals 1
        ≠ (commit_step mat2 2 1 ⟨[0, 1], 5⟩ 0 two_worker_start).best.cost := by
  decide

/-- Claim C7 as amended: a local bound is refreshed only by its own worker.
When a commit by worker w changes the shared best tour, the local bound of w
equals the new shared best cost, and the local bound of every other worker is
left unchanged, so it may remain above the shared best cost. -/
theorem local_bound_refresh_amended (mat : Int → Int) (n city : Int)
    (tour : tour_t) (w : Nat) (s : shared_state_t) :
    ((commit_step mat n city tour w s).best ≠ s.best →
        (commit_step mat n city tour w s).locals w
          = (commit_step mat n city tour w s).best.cost)
    ∧ ∀ q : Nat, q ≠ w →
        (commit_step mat n city tour w s).locals q = s.locals q := by
  unfold commit_step Check_best_tour
  split_ifs with h
  · constructor
    · intro _
      simp
    · intro q hq
      simp [hq]
  · constructor
    · intro hne
      exact absurd rfl hne
    · intro q hq
      simp [hq]

/-- Witness for local_bound_refresh_amended at the concrete commit of the
counterexample. -/
theorem local_bound_refresh_amended_witness :
    (commit_step mat2 2 1 ⟨[0, 1], 5⟩ 0 two_worker_start).locals 0
      = (commit_step mat2 2 1 ⟨[0, 1], 5⟩ 0 two_worker_start).best.cost
    ∧ (commit_step mat2 2 1 ⟨[0, 1], 5⟩ 0 two_worker_start).locals 1
      = two_worker_start.locals 1 :=
  ⟨(local_bound_refresh_amended mat2 2 1 ⟨[0, 1], 5⟩ 0 two_worker_start).1
     (by decide),
   (local_bound_refresh_amended mat2 2 1 ⟨[0, 1], 5⟩ 0 two_worker_start).2 1
     (by decide)⟩

/-- Claim C8: the shared best cost starts at the sentinel INFINITY and every
execution of the commit operation, the only code that writes it, leaves it
less than or equal to its previous value, so it is monotonically
non-increasing over the run. -/
theorem best_cost_monotone :
    best_tour_init.cost = INFINITY
    ∧ ∀ (mat : Int → Int) (n city : Int) (tour best : tour_t)
        (local_best_cost : Int),
        (Check_best_tour mat n city tour best local_best_cost).1.cost
          ≤ best.cost := by
  refine ⟨rfl, ?_⟩
  intro mat n city tour best local_best_cost
  unfold Check_best_tour
  split_ifs with h
  · exact le_of_lt h
  · exact le_refl _

/-- Claim C9: on any invalid configuration, wrong argument count, unreadable
matrix file, thread count below 1 or at least n, the startup checks of main
print the usage message to stderr and exit before any worker thread is
created (modelled by the usageExit outcome, which precedes the
pthread_create loop in the source). -/
theorem invalid_config_usage_exit (c : config_t)
    (h : c.argc ≠ 3 ∨ c.file_readable = false ∨ c.thread_count < 1
          ∨ c.n ≤ c.thread_count) :
    main_startup c = main_result_t.usageExit := by
  unfold main_startup
  split_ifs with h1 h2 h3
  · rfl
  · rfl
  · rfl
  · rcases h with h | h | h | h
    · exact absurd h h1
    · exact absurd h h2
    · exact absurd (Or.inl h) h3
    · exact absurd (Or.inr h) h3

/-- Witness for invalid_config_usage_exit: three arguments, readable file,
five cities, but thread count 0. -/
theorem invalid_config_usage_exit_witness :
    main_startup ⟨3, true, 0, 5⟩ = main_result_t.usageExit :=
  invalid_config_usage_exit ⟨3, true, 0, 5⟩
    (Or.inr (Or.inr (Or.inl (by decide))))
